import Mathlib

/-!
Shallow embedding of the authentication/authorization core and the
ownership-scoped task store of the `mern-todo-app` repository.

Sources embedded here:
* `backend/routes/taskRoutes.js` — three concatenated Express routers:
  a legacy unauthenticated task router (lines 1–35), the authenticated
  task router (lines 36–243), and the auth router with
  register/login (lines 244–451);
* the Task mongoose schema (`src/unnamed/part_002`);
* `backend/utils/bcryptConfig.js`;
* the `userSchema.pre` save hook quoted in `src/README.md` (lines 638–644).

Strings are modelled as `List Char` (Lean's built-in `String` operations
do not reduce well in proofs); JavaScript request values are modelled by
`JSVal` with JavaScript truthiness.  The mongoose `User` model and the
`middleware/auth.js` Access Guard are not present in the repository
sources; the definitions standing in for them are explicitly marked
`Modelled from the spec:`.
-/

namespace TodoApp

/-- Character strings of the embedded program (JavaScript strings). -/
abbrev Str := List Char

/-- Whitespace as removed by JavaScript `String.prototype.trim` (the
characters that occur in the repository's inputs). -/
def isWS (c : Char) : Bool := c == ' ' || c == '\t' || c == '\n' || c == '\r'

/-- JavaScript `s.trim()`: drop leading and trailing whitespace. -/
def trimL (l : Str) : Str :=
  ((l.dropWhile isWS).reverse.dropWhile isWS).reverse

/-- ASCII lower-casing of one character (JavaScript `toLowerCase` on the
ASCII inputs this application handles). -/
def lowerC (c : Char) : Char :=
  if 'A' ≤ c && c ≤ 'Z' then Char.ofNat (c.toNat + 32) else c

/-- JavaScript `s.toLowerCase()` on ASCII strings. -/
def lowerL (l : Str) : Str := l.map lowerC

/-- Email normalisation used by both `register` and `login`
(`email.toLowerCase().trim()`, taskRoutes.js lines 281 and 363). -/
def normEmail (e : Str) : Str := trimL (lowerL e)

/-- JSON request-field values as JavaScript sees them: `undef` stands for
an absent field (`undefined`). -/
inductive JSVal where
  | undef
  | null
  | bool (b : Bool)
  | num (n : Int)
  | str (s : Str)
  deriving DecidableEq, Repr

/-- JavaScript truthiness, i.e. `Boolean(x)` (taskRoutes.js line 165):
`undefined`, `null`, `false`, `0` and the empty string are falsy, every
other value — including the non-empty string `"false"` — is truthy. -/
def JSVal.toBoolean : JSVal → Bool
  | .undef => false
  | .null => false
  | .bool b => b
  | .num n => n != 0
  | .str s => !s.isEmpty

/-- Error outcomes of the API, following the spec's taxonomy; each
constructor corresponds to a response the routes produce
(`validation` = HTTP 400 with a message, `notFound` = 404,
`unauthorized` = 401 from the guard, `userExists`/`userNotFound`/
`invalidCredentials` = the auth-domain failures, `serverError` = 500). -/
inductive ApiErr where
  | validation (msg : String)
  | notFound
  | unauthorized
  | userExists
  | userNotFound
  | invalidCredentials
  | serverError
  deriving DecidableEq, Repr

/-- Whether an `Except` result is a success. -/
def exOk {α : Type} : Except ApiErr α → Bool
  | .ok _ => true
  | .error _ => false

/-! ## Password hashing -/

/-- A bcrypt hash value: the per-call salt is embedded in the output next
to the digest, as in the bcrypt output format. -/
structure BHash where
  salt : Nat
  dig : Nat
  deriving DecidableEq, Repr

/-- Modelled from the spec: the one-way digest underlying the Password
Hashing Service (the bcrypt library itself is an external dependency, not
repository code).  A concrete executable stand-in keyed by plaintext and
salt. -/
def digest (p : Str) (salt : Nat) : Nat :=
  p.foldl (fun a c => a * 1114112 + c.toNat + 1) (salt + 1)

/-- Modelled from the spec: `hash(plaintext)` with a per-call salt
embedded in the output (§4.1 of the spec; the call site is the
`userSchema.pre` save hook quoted in README lines 638–644, which runs
`bcrypt.hash(this.password, saltRounds)`).  The salt is passed explicitly
since the embedding is deterministic. -/
def bcryptHash (p : Str) (salt : Nat) : BHash :=
  ⟨salt, digest p salt⟩

/-- Modelled from the spec: `verify(plaintext, hashValue)` recomputes the
digest with the salt embedded in the hash and compares
(`user.comparePassword` of the User model, which is not in src). -/
def bcryptVerify (p : Str) (h : BHash) : Bool :=
  digest p h.salt == h.dig

/-- The hashing step as a fallible computation, embedded from the
`userSchema.pre` save hook quoted in README lines 638–644: the hook calls
`bcrypt.hash` directly on whatever plaintext is present, with no input
validation of any kind, so no input ever produces an error. -/
def bcryptHashE (p : Str) (salt : Nat) : Except ApiErr BHash :=
  .ok (bcryptHash p salt)

/-- The `NODE_ENV` values distinguished by `bcryptConfig.js`. -/
inductive NodeEnv where
  | production
  | development
  | other
  deriving DecidableEq, Repr

/-- `getBcryptRounds` from `backend/utils/bcryptConfig.js` lines 2–10. -/
def getBcryptRounds : NodeEnv → Nat
  | .production => 10
  | .development => 8
  | .other => 10

/-! ## Users and the auth routes -/

/-- A persisted User record (spec §3; the mongoose User model file is not
in src, its fields are those the routes read and write). -/
structure UserRec where
  id : Nat
  name : Str
  email : Str
  hash : BHash
  deriving DecidableEq, Repr

/-- The credential store: the persisted users plus a fresh-id counter. -/
structure AuthState where
  users : List UserRec
  nextUid : Nat
  deriving DecidableEq, Repr

/-- Modelled from the spec: the User-schema name constraint
("`name`: display string, 2–50 characters, trimmed"); the mongoose User
model enforcing it is not in src.  Applied to the already-trimmed name. -/
def nameValid (n : Str) : Bool :=
  2 ≤ n.length && n.length ≤ 50

/-- Splits a string at the first occurrence of a character, if any. -/
def splitAtChar (c : Char) : Str → Option (Str × Str)
  | [] => none
  | x :: xs =>
    if x == c then some ([], xs)
    else match splitAtChar c xs with
      | none => none
      | some (a, b) => some (x :: a, b)

/-- Modelled from the spec: "email syntax" validation of the User schema
(not in src): one `@` with a non-empty local part and a non-empty domain
containing a dot. -/
def emailValid (e : Str) : Bool :=
  match splitAtChar '@' e with
  | none => false
  | some (loc, dom) =>
    !loc.isEmpty && !dom.isEmpty && !dom.contains '@' && dom.contains '.'

/-- Modelled from the spec: the User-schema validations run by mongoose
when `user.save()` executes (name length and email syntax; presence and
password length are checked earlier by the route itself). -/
def userSchemaValid (trimmedName email : Str) : Bool :=
  nameValid trimmedName && emailValid email

/-- Request body of `POST /api/auth/register`; `none` models an absent
field. -/
structure RegBody where
  name : Option Str
  email : Option Str
  password : Option Str
  deriving DecidableEq, Repr

/-- A successful auth response: token plus the public user fields
(`passwordHash` is never included, taskRoutes.js lines 305–314). -/
structure AuthOk where
  token : Nat
  uid : Nat
  name : Str
  email : Str
  deriving DecidableEq, Repr

/-- JavaScript falsiness of an optional string field (`!x` on an absent
field or an empty string). -/
def jsAbsent : Option Str → Bool
  | none => true
  | some s => s.isEmpty

/-- `POST /api/auth/register` (taskRoutes.js lines 263–345).
`issue` models `generateToken` = `jwt.sign` (line 252), which can throw
(e.g. a missing `JWT_SECRET`) — modelled as returning `none`; `salt` is
the per-call bcrypt salt.  Order of steps, exactly as the code:
presence check, password-length check, email normalisation, duplicate
lookup (`User.findOne`), then `user.save()` — which runs the (modelled)
schema validation and on success persists the record — and only then
`generateToken`.  A `generateToken` throw lands in the catch block at
line 315 (neither a `ValidationError` nor code 11000, hence 500), with
the already-saved user left in the store. -/
def register (issue : Nat → Option Nat) (salt : Nat) (b : RegBody)
    (s : AuthState) : Except ApiErr AuthOk × AuthState :=
  if jsAbsent b.name || jsAbsent b.email || jsAbsent b.password then
    (.error (.validation "Please provide name, email, and password"), s)
  else
    match b.name, b.email, b.password with
    | some n, some e, some pw =>
      if pw.length < 6 then
        (.error (.validation "Password must be at least 6 characters long"), s)
      else
        let te := normEmail e
        if s.users.any (fun u => u.email == te) then
          (.error .userExists, s)
        else if !userSchemaValid (trimL n) te then
          (.error (.validation "Please check your input and try again."), s)
        else
          let u : UserRec := ⟨s.nextUid, trimL n, te, bcryptHash pw salt⟩
          let s' : AuthState := ⟨s.users ++ [u], s.nextUid + 1⟩
          match issue u.id with
          | none => (.error .serverError, s')
          | some tk => (.ok ⟨tk, u.id, u.name, u.email⟩, s')
    | _, _, _ =>
      (.error (.validation "Please provide name, email, and password"), s)

/-- The kinds of storage-layer errors the register catch block
distinguishes (taskRoutes.js lines 315–344): a mongoose
`ValidationError`, a MongoDB duplicate-key error (`error.code === 11000`),
and anything else. -/
inductive DbErr where
  | validationFail
  | dupKey
  | otherErr
  deriving DecidableEq, Repr

/-- The register catch block (taskRoutes.js lines 315–344): translates a
mongoose `ValidationError` to a 400 validation response, a duplicate-key
error to the `USER_EXISTS` response, and everything else to a 500. -/
def registerCatch : DbErr → ApiErr
  | .validationFail => .validation "Please check your input and try again."
  | .dupKey => .userExists
  | .otherErr => .serverError

/-- `POST /api/auth/login` (taskRoutes.js lines 350–410): presence check,
email normalisation, `User.findOne` (absent → 404 `USER_NOT_FOUND`),
`user.comparePassword` (mismatch → 401 `INVALID_PASSWORD`), then token
issue.  Login never mutates the store. -/
def login (issue : Nat → Option Nat) (email password : Option Str)
    (s : AuthState) : Except ApiErr AuthOk × AuthState :=
  if jsAbsent email || jsAbsent password then
    (.error (.validation "Please provide email and password"), s)
  else
    match email, password with
    | some e, some pw =>
      match s.users.find? (fun u => u.email == normEmail e) with
      | none => (.error .userNotFound, s)
      | some u =>
        if !bcryptVerify pw u.hash then
          (.error .invalidCredentials, s)
        else
          match issue u.id with
          | none => (.error .serverError, s)
          | some tk => (.ok ⟨tk, u.id, u.name, u.email⟩, s)
    | _, _ => (.error (.validation "Please provide email and password"), s)

/-! ## Tasks and the authenticated task router -/

/-- A persisted Task record, from the mongoose schema in
`src/unnamed/part_002`: `title` (trimmed, 1–200 chars), `completed`
(default `false`), `user` (the owning User id), plus the `createdAt`
timestamp added by `timestamps: true` (modelled by a monotone counter). -/
structure TaskRec where
  id : Nat
  title : Str
  completed : Bool
  user : Nat
  createdAt : Nat
  deriving DecidableEq, Repr

/-- The task store: persisted tasks plus a fresh-id counter (which also
serves as the monotone `createdAt` clock). -/
structure TaskState where
  tasks : List TaskRec
  nextId : Nat
  deriving DecidableEq, Repr

/-- Request body of the authenticated `POST /api/tasks`: the route
destructures only `title` (line 49); `bodyUser` stands for a `user`
field a client may put in the payload, which the route never reads. -/
structure CreateBody where
  title : JSVal
  bodyUser : Option Nat
  deriving DecidableEq, Repr

/-- Authenticated `POST /api/tasks` (taskRoutes.js lines 47–94):
`!title || title.trim().length === 0` → 400, `title.trim().length > 200`
→ 400, otherwise a Task is saved with `title: title.trim()` and
`user: req.user._id` (line 67) — never a payload value; `completed`
gets the schema default `false`.  A non-string truthy `title` makes
`title.trim()` throw a `TypeError`, which the catch block turns into a
500. -/
def createTask (uid : Nat) (b : CreateBody) (s : TaskState) :
    Except ApiErr TaskRec × TaskState :=
  if !b.title.toBoolean then
    (.error (.validation "Task title is required"), s)
  else
    match b.title with
    | .str t =>
      if (trimL t).isEmpty then
        (.error (.validation "Task title is required"), s)
      else if 200 < (trimL t).length then
        (.error (.validation "Task title cannot exceed 200 characters"), s)
      else
        let task : TaskRec := ⟨s.nextId, trimL t, false, uid, s.nextId⟩
        (.ok task, ⟨s.tasks ++ [task], s.nextId + 1⟩)
    | _ => (.error .serverError, s)

/-- Query parameters of the authenticated `GET /api/tasks`
(line 101): optional `completed` filter string, sort direction
(`'-createdAt'`, the default, sorts newest first), `limit` and `page`. -/
structure ListQuery where
  completed : Option Str
  sortNewestFirst : Bool
  limit : Nat
  page : Nat
  deriving DecidableEq, Repr

/-- The route's default query: no filter, `'-createdAt'`, limit 100,
page 1 (line 101). -/
def defaultQuery : ListQuery := ⟨none, true, 100, 1⟩

/-- Insertion into a list ordered by the given comparator. -/
def insertBy (le : TaskRec → TaskRec → Bool) (t : TaskRec) :
    List TaskRec → List TaskRec
  | [] => [t]
  | x :: xs => if le t x then t :: x :: xs else x :: insertBy le t xs

/-- Insertion sort by the given comparator (models the mongo sort). -/
def sortBy (le : TaskRec → TaskRec → Bool) (l : List TaskRec) :
    List TaskRec :=
  l.foldr (insertBy le) []

/-- Authenticated `GET /api/tasks` (taskRoutes.js lines 99–139): the
query is `{ user: req.user._id }` plus, when the `completed` parameter is
present, `completed === 'true'`; the matches are sorted, then `skip`
`(page-1)*limit` and `limit` are applied. -/
def listTasks (uid : Nat) (q : ListQuery) (s : TaskState) : List TaskRec :=
  let hits := s.tasks.filter fun t =>
    t.user == uid &&
      (match q.completed with
       | none => true
       | some c => t.completed == (c == "true".data))
  let sorted :=
    if q.sortNewestFirst then sortBy (fun a b => b.createdAt ≤ a.createdAt) hits
    else sortBy (fun a b => a.createdAt ≤ b.createdAt) hits
  (sorted.drop ((q.page - 1) * q.limit)).take q.limit

/-- Request body of the authenticated `PUT /api/tasks/:id` (line 146):
both fields optional, `undef` = absent. -/
structure UpdateBody where
  title : JSVal
  completed : JSVal
  deriving DecidableEq, Repr

/-- The title part of the update route's validation (lines 150–162):
absent title is skipped; `!title` → 400 "cannot be empty"; a string is
trimmed and checked non-empty and ≤ 200; a truthy non-string makes
`title.trim()` throw, caught as a 500. -/
def titleCheck : JSVal → Except ApiErr (Option Str)
  | .undef => .ok none
  | v =>
    if !v.toBoolean then
      .error (.validation "Task title cannot be empty")
    else
      match v with
      | .str t =>
        if (trimL t).isEmpty then
          .error (.validation "Task title cannot be empty")
        else if 200 < (trimL t).length then
          .error (.validation "Task title cannot exceed 200 characters")
        else .ok (some (trimL t))
      | _ => .error .serverError

/-- The `completed` part of the update data (lines 164–166):
`if (completed !== undefined) updateData.completed = Boolean(completed)`. -/
def completedPatch : JSVal → Option Bool
  | .undef => none
  | v => some v.toBoolean

/-- Application of the update data to a found task (`findOneAndUpdate`'s
`$set`): title and completed are replaced when present, nothing else
changes. -/
def applyPatch (tOpt : Option Str) (cOpt : Option Bool) (t : TaskRec) :
    TaskRec :=
  { t with title := tOpt.getD t.title, completed := cOpt.getD t.completed }

/-- The ownership-scoped selector `{ _id: req.params.id, user:
req.user._id }` used by update (line 170) and delete (line 214). -/
def taskSel (uid id : Nat) (t : TaskRec) : Bool :=
  t.id == id && t.user == uid

/-- Replaces the first list element satisfying `p` by its `f`-image
(the write half of `findOneAndUpdate`). -/
def updateFirst (p : TaskRec → Bool) (f : TaskRec → TaskRec) :
    List TaskRec → List TaskRec
  | [] => []
  | t :: ts => if p t then f t :: ts else t :: updateFirst p f ts

/-- Removes the first list element satisfying `p` (the write half of
`findOneAndDelete`). -/
def removeFirst (p : TaskRec → Bool) : List TaskRec → List TaskRec
  | [] => []
  | t :: ts => if p t then ts else t :: removeFirst p ts

/-- Authenticated `PUT /api/tasks/:id` (taskRoutes.js lines 144–206):
field validation first, then `findOneAndUpdate({_id, user}, updateData,
{new: true, runValidators: true})`; no matching task owned by the caller
→ 404.  The route's own checks already guarantee the schema validators
pass on the update data. -/
def updateTask (uid id : Nat) (b : UpdateBody) (s : TaskState) :
    Except ApiErr TaskRec × TaskState :=
  match titleCheck b.title with
  | .error e => (.error e, s)
  | .ok tOpt =>
    let cOpt := completedPatch b.completed
    match s.tasks.find? (taskSel uid id) with
    | none => (.error .notFound, s)
    | some t =>
      (.ok (applyPatch tOpt cOpt t),
       ⟨updateFirst (taskSel uid id) (applyPatch tOpt cOpt) s.tasks, s.nextId⟩)

/-- Authenticated `DELETE /api/tasks/:id` (taskRoutes.js lines 211–241):
`findOneAndDelete({_id, user})`; no matching task owned by the caller
→ 404, otherwise the task is removed and returned. -/
def deleteTask (uid id : Nat) (s : TaskState) :
    Except ApiErr TaskRec × TaskState :=
  match s.tasks.find? (taskSel uid id) with
  | none => (.error .notFound, s)
  | some t => (.ok t, ⟨removeFirst (taskSel uid id) s.tasks, s.nextId⟩)

/-- Modelled from the spec: the ownership-scoped single-task fetch
("B's `update`/`delete`/single-fetch of that Task's id always fails
`NotFound`").  No `GET /api/tasks/:id` route exists in src, so this
follows the spec's words: the task is looked up under the caller's
ownership, and a task owned by someone else is indistinguishable from a
nonexistent one. -/
def getTaskSpec (uid id : Nat) (s : TaskState) : Except ApiErr TaskRec :=
  match s.tasks.find? (taskSel uid id) with
  | none => .error .notFound
  | some t => .ok t

/-- The tasks of one owner in a state (the Task records whose `user` is
that owner). -/
def ownedBy (uid : Nat) (s : TaskState) : List TaskRec :=
  s.tasks.filter fun t => t.user == uid

/-! ## The legacy unauthenticated task router

taskRoutes.js lines 1–35: a second, older task router kept in the
repository whose four CRUD handlers take no credentials at all and use
unscoped queries. -/

/-- Body of the legacy `POST /` (line 8, `new Task(req.body)`): the
schema paths `title`, `completed` and `user` are taken straight from the
payload. -/
structure LegacyBody where
  title : Option Str
  completed : Option Bool
  user : Option Nat
  deriving DecidableEq, Repr

/-- Legacy `POST /api/tasks` (lines 7–11): `new Task(req.body).save()`
with no auth and no try/catch; the schema requires `title` (trimmed,
1–200) and `user`, and a schema failure surfaces as an unhandled
rejection (a 500 to the caller) — the owner id comes from the payload. -/
def legacyCreate (b : LegacyBody) (s : TaskState) :
    Except ApiErr TaskRec × TaskState :=
  match b.title, b.user with
  | some t, some u =>
    let tt := trimL t
    if tt.isEmpty || 200 < tt.length then (.error .serverError, s)
    else
      let task : TaskRec := ⟨s.nextId, tt, b.completed.getD false, u, s.nextId⟩
      (.ok task, ⟨s.tasks ++ [task], s.nextId + 1⟩)
  | _, _ => (.error .serverError, s)

/-- Legacy `GET /api/tasks` (lines 15–18): `Task.find()` — every task of
every user, no auth. -/
def legacyGetAll (s : TaskState) : List TaskRec := s.tasks

/-- Legacy `PUT /api/tasks/:id` (lines 22–25):
`Task.findByIdAndUpdate(id, body, {new: true})` — selected by id only,
no owner scoping, no validators; a missing task yields `null` with a 200. -/
def legacyUpdate (id : Nat) (b : LegacyBody) (s : TaskState) :
    Except ApiErr (Option TaskRec) × TaskState :=
  let f : TaskRec → TaskRec := fun t =>
    { t with
      title := (b.title.map trimL).getD t.title
      completed := b.completed.getD t.completed
      user := b.user.getD t.user }
  match s.tasks.find? (fun t => t.id == id) with
  | none => (.ok none, s)
  | some t =>
    (.ok (some (f t)), ⟨updateFirst (fun t => t.id == id) f s.tasks, s.nextId⟩)

/-- Legacy `DELETE /api/tasks/:id` (lines 29–32):
`Task.findByIdAndDelete(id)` — selected by id only, no owner scoping,
and the handler answers `'Task deleted'` unconditionally. -/
def legacyDelete (id : Nat) (s : TaskState) : Except ApiErr Unit × TaskState :=
  (.ok (), ⟨removeFirst (fun t => t.id == id) s.tasks, s.nextId⟩)

/-! ## The Access Guard and the guarded endpoints -/

/-- A bearer token as the guard sees it: subject claim, expiry claim, and
whether its signature verifies against the server secret. -/
structure Tok where
  sub : Nat
  exp : Nat
  sigOk : Bool
  deriving DecidableEq, Repr

/-- Modelled from the spec: the Access Guard (`middleware/auth.js`, not
in src; spec §4.4): absent header → `Unauthorized`; bad signature or
expiry passed → `Unauthorized`; a subject that no longer resolves to a
stored user → `Unauthorized`; otherwise the resolved identity. -/
def guard (now : Nat) (userIds : List Nat) : Option Tok → Except ApiErr Nat
  | none => .error .unauthorized
  | some t =>
    if !t.sigOk then .error .unauthorized
    else if t.exp ≤ now then .error .unauthorized
    else if userIds.contains t.sub then .ok t.sub
    else .error .unauthorized

/-- `router.use(auth)` (line 42) in front of `POST /api/tasks`. -/
def authedCreate (now : Nat) (userIds : List Nat) (tok : Option Tok)
    (b : CreateBody) (s : TaskState) : Except ApiErr TaskRec × TaskState :=
  match guard now userIds tok with
  | .error e => (.error e, s)
  | .ok uid => createTask uid b s

/-- `router.use(auth)` (line 42) in front of `GET /api/tasks`. -/
def authedList (now : Nat) (userIds : List Nat) (tok : Option Tok)
    (q : ListQuery) (s : TaskState) :
    Except ApiErr (List TaskRec) × TaskState :=
  match guard now userIds tok with
  | .error e => (.error e, s)
  | .ok uid => (.ok (listTasks uid q s), s)

/-- `router.use(auth)` (line 42) in front of `PUT /api/tasks/:id`. -/
def authedUpdate (now : Nat) (userIds : List Nat) (tok : Option Tok)
    (id : Nat) (b : UpdateBody) (s : TaskState) :
    Except ApiErr TaskRec × TaskState :=
  match guard now userIds tok with
  | .error e => (.error e, s)
  | .ok uid => updateTask uid id b s

/-- `router.use(auth)` (line 42) in front of `DELETE /api/tasks/:id`. -/
def authedDelete (now : Nat) (userIds : List Nat) (tok : Option Tok)
    (id : Nat) (s : TaskState) : Except ApiErr TaskRec × TaskState :=
  match guard now userIds tok with
  | .error e => (.error e, s)
  | .ok uid => deleteTask uid id s

/-! ## Sequences of authenticated task operations -/

/-- One authenticated task-router operation, as performed by a resolved
identity. -/
inductive TaskOp where
  | create (b : CreateBody)
  | listAll (q : ListQuery)
  | update (id : Nat) (b : UpdateBody)
  | del (id : Nat)
  | getOne (id : Nat)
  deriving DecidableEq, Repr

/-- The state reached after one authenticated task operation performed
as `uid` (reads leave the state as is). -/
def applyOp (uid : Nat) (op : TaskOp) (s : TaskState) : TaskState :=
  match op with
  | .create b => (createTask uid b s).2
  | .listAll _ => s
  | .update id b => (updateTask uid id b s).2
  | .del id => (deleteTask uid id s).2
  | .getOne _ => s

/-- The state reached after a sequence of authenticated task operations
performed as `uid`. -/
def applyOps (uid : Nat) (ops : List TaskOp) (s : TaskState) : TaskState :=
  ops.foldl (fun s op => applyOp uid op s) s

/-! ## Helper lemmas about the list primitives -/

theorem mem_insertBy (le : TaskRec → TaskRec → Bool) (t a : TaskRec)
    (l : List TaskRec) : a ∈ insertBy le t l ↔ a = t ∨ a ∈ l := by
  induction l with
  | nil => simp [insertBy]
  | cons x xs ih =>
    simp only [insertBy]
    split
    · simp [List.mem_cons]
    · simp only [List.mem_cons, ih]
      tauto

theorem mem_sortBy (le : TaskRec → TaskRec → Bool) (a : TaskRec)
    (l : List TaskRec) : a ∈ sortBy le l ↔ a ∈ l := by
  induction l with
  | nil => simp [sortBy]
  | cons x xs ih =>
    simp only [sortBy, List.foldr] at *
    rw [mem_insertBy, ih, List.mem_cons]

theorem filter_updateFirst (p q : TaskRec → Bool) (f : TaskRec → TaskRec)
    (h : ∀ t, p t = true → q t = false ∧ q (f t) = false)
    (l : List TaskRec) : (updateFirst p f l).filter q = l.filter q := by
  induction l with
  | nil => rfl
  | cons x xs ih =>
    simp only [updateFirst]
    by_cases hp : p x
    · simp [hp, List.filter_cons, (h x hp).1, (h x hp).2]
    · simp [hp, List.filter_cons, ih]

theorem filter_removeFirst (p q : TaskRec → Bool)
    (h : ∀ t, p t = true → q t = false)
    (l : List TaskRec) : (removeFirst p l).filter q = l.filter q := by
  induction l with
  | nil => rfl
  | cons x xs ih =>
    simp only [removeFirst]
    by_cases hp : p x
    · simp [hp, List.filter_cons, h x hp]
    · simp [hp, List.filter_cons, ih]

theorem map_id_updateFirst (p : TaskRec → Bool) (f : TaskRec → TaskRec)
    (h : ∀ t, (f t).id = t.id) (l : List TaskRec) :
    (updateFirst p f l).map (fun t => t.id) = l.map (fun t => t.id) := by
  induction l with
  | nil => rfl
  | cons x xs ih =>
    simp only [updateFirst]
    by_cases hp : p x
    · simp [hp, h]
    · simp [hp, ih]

theorem removeFirst_sublist (p : TaskRec → Bool) (l : List TaskRec) :
    (removeFirst p l).Sublist l := by
  induction l with
  | nil => simp [removeFirst]
  | cons x xs ih =>
    simp only [removeFirst]
    by_cases hp : p x
    · simp [hp, List.sublist_cons_of_sublist, List.Sublist.refl]
    · simpa [hp] using ih.cons₂ x

theorem mem_of_mem_removeFirst (p : TaskRec → Bool) {a : TaskRec}
    {l : List TaskRec} (h : a ∈ removeFirst p l) : a ∈ l :=
  (removeFirst_sublist p l).subset h

/-! ## Well-formedness of task states -/

/-- Store well-formedness: task ids are pairwise distinct (MongoDB's
`_id` uniqueness) and bounded by the fresh-id counter. -/
def WFS (s : TaskState) : Prop :=
  (s.tasks.map (fun t => t.id)).Nodup ∧ ∀ t ∈ s.tasks, t.id < s.nextId

theorem WFS_applyOp (uid : Nat) (op : TaskOp) (s : TaskState)
    (h : WFS s) : WFS (applyOp uid op s) := by
  obtain ⟨hnd, hlt⟩ := h
  cases op with
  | listAll q => exact ⟨hnd, hlt⟩
  | getOne id => exact ⟨hnd, hlt⟩
  | create b =>
    simp only [applyOp, createTask]
    split
    · exact ⟨hnd, hlt⟩
    · split
      · split
        · exact ⟨hnd, hlt⟩
        · split
          · exact ⟨hnd, hlt⟩
          · constructor
            · simp only [List.map_append, List.map_cons, List.map_nil]
              rw [List.nodup_append]
              refine ⟨hnd, List.nodup_singleton _, ?_⟩
              intro i hi hmem
              simp only [List.mem_singleton] at hmem
              subst hmem
              obtain ⟨u, hu, hui⟩ := List.mem_map.mp hi
              exact absurd hui (Nat.ne_of_lt (hlt u hu))
            · intro t ht
              rcases List.mem_append.mp ht with ht | ht
              · exact Nat.lt_succ_of_lt (hlt t ht)
              · simp only [List.mem_singleton] at ht
                subst ht
                exact Nat.lt_succ_self _
      · exact ⟨hnd, hlt⟩
  | update id b =>
    simp only [applyOp, updateTask]
    split
    · exact ⟨hnd, hlt⟩
    · rename_i tOpt htc
      split
      · exact ⟨hnd, hlt⟩
      · rename_i t0 hfind
        dsimp only
        have hmap := map_id_updateFirst (taskSel uid id)
          (applyPatch tOpt (completedPatch b.completed)) (fun t => rfl) s.tasks
        constructor
        · rw [hmap]
          exact hnd
        · intro t ht
          have hidmem : t.id ∈ (updateFirst (taskSel uid id)
              (applyPatch tOpt (completedPatch b.completed)) s.tasks).map
                (fun t => t.id) :=
            List.mem_map_of_mem _ ht
          rw [hmap] at hidmem
          obtain ⟨u, hu, hui⟩ := List.mem_map.mp hidmem
          exact hui ▸ hlt u hu
  | del id =>
    simp only [applyOp, deleteTask]
    split
    · exact ⟨hnd, hlt⟩
    · constructor
      · exact hnd.sublist ((removeFirst_sublist _ _).map _)
      · intro t ht
        exact hlt t (mem_of_mem_removeFirst _ ht)

theorem WFS_applyOps (uid : Nat) (ops : List TaskOp) (s : TaskState)
    (h : WFS s) : WFS (applyOps uid ops s) := by
  induction ops generalizing s with
  | nil => exact h
  | cons op ops ih => exact ih _ (WFS_applyOp uid op s h)

/-! ## Preservation of another user's tasks -/

theorem ownedBy_applyOp (A B : Nat) (hAB : A ≠ B) (op : TaskOp)
    (s : TaskState) : ownedBy B (applyOp A op s) = ownedBy B s := by
  cases op with
  | listAll q => rfl
  | getOne id => rfl
  | create b =>
    simp only [applyOp, createTask]
    split
    · rfl
    · split
      · split
        · rfl
        · split
          · rfl
          · simp only [ownedBy, List.filter_append, List.filter_cons,
              List.filter_nil]
            have : (A == B) = false := by
              simp [hAB]
            simp [this]
      · rfl
  | update id b =>
    simp only [applyOp, updateTask]
    split
    · rfl
    · split
      · rfl
      · simp only [ownedBy]
        apply filter_updateFirst
        intro t htsel
        have hA : t.user = A := by
          simp only [taskSel, Bool.and_eq_true, beq_iff_eq] at htsel
          exact htsel.2
        constructor
        · simp [hA, hAB]
        · simp [applyPatch, hA, hAB]
  | del id =>
    simp only [applyOp, deleteTask]
    split
    · rfl
    · simp only [ownedBy]
      apply filter_removeFirst
      intro t htsel
      have hA : t.user = A := by
        simp only [taskSel, Bool.and_eq_true, beq_iff_eq] at htsel
        exact htsel.2
      simp [hA, hAB]

theorem ownedBy_applyOps (A B : Nat) (hAB : A ≠ B) (ops : List TaskOp)
    (s : TaskState) : ownedBy B (applyOps A ops s) = ownedBy B s := by
  induction ops generalizing s with
  | nil => rfl
  | cons op ops ih =>
    simp only [applyOps, List.foldl]
    rw [show (List.foldl (fun s op => applyOp A op s) (applyOp A op s) ops)
        = applyOps A ops (applyOp A op s) from rfl]
    rw [ih, ownedBy_applyOp A B hAB]

/-! ## Ownership-scoped lookups -/

theorem find_none_of_other_owner {A B : Nat} (hAB : A ≠ B) {s : TaskState}
    (hnd : (s.tasks.map (fun t => t.id)).Nodup) {t : TaskRec}
    (ht : t ∈ s.tasks) (hB : t.user = B) :
    s.tasks.find? (taskSel A t.id) = none := by
  rw [List.find?_eq_none]
  intro u hu hsel
  simp only [taskSel, Bool.and_eq_true, beq_iff_eq] at hsel
  have hut : u = t := List.inj_on_of_nodup_map hnd hu ht hsel.1
  rw [hut, hB] at hsel
  exact hAB hsel.2.symm

theorem find_self_of_owner {A : Nat} {s : TaskState}
    (hnd : (s.tasks.map (fun t => t.id)).Nodup) {t : TaskRec}
    (ht : t ∈ s.tasks) (hA : t.user = A) :
    s.tasks.find? (taskSel A t.id) = some t := by
  have hex : ∃ x ∈ s.tasks, taskSel A t.id x = true :=
    ⟨t, ht, by simp [taskSel, hA]⟩
  have hsome : (s.tasks.find? (taskSel A t.id)).isSome :=
    List.find?_isSome.mpr hex
  obtain ⟨u, hu⟩ := Option.isSome_iff_exists.mp hsome
  have hpu := List.find?_some hu
  have humem := List.mem_of_find?_eq_some hu
  simp only [taskSel, Bool.and_eq_true, beq_iff_eq] at hpu
  have : u = t := List.inj_on_of_nodup_map hnd humem ht hpu.1
  rw [hu, this]

/-! ## Claims -/

/-- C7: password hashing is salted and verification round-trips: for
every plaintext `p`, two `hash(p)` calls (which by the salting contract
draw distinct per-call salts) never produce identical output, and
`verify(p, hash(p))` is always true. -/
theorem C7_hash_salted_roundtrip (p : Str) (s1 s2 : Nat) (h : s1 ≠ s2) :
    bcryptHash p s1 ≠ bcryptHash p s2 ∧
      bcryptVerify p (bcryptHash p s1) = true := by
  constructor
  · intro hcon
    exact h (congrArg BHash.salt hcon)
  · simp [bcryptVerify, bcryptHash]

theorem C7_witness :
    (0 : Nat) ≠ 1 ∧
      (bcryptHash "secret1".data 0 ≠ bcryptHash "secret1".data 1 ∧
        bcryptVerify "secret1".data (bcryptHash "secret1".data 0) = true) :=
  ⟨by decide, C7_hash_salted_roundtrip "secret1".data 0 1 (by decide)⟩

/-- C8 counterexample: the claim says an empty (or over-long) plaintext
makes `hash` fail with an `InvalidInput` error before doing any work, but
the hashing step of the code has no failure path at all: hashing the
empty string succeeds, and so does hashing a 1000-character string (no
length bound exists anywhere). -/
theorem C8_counterexample :
    bcryptHashE [] 0 = .ok ⟨0, 1⟩ ∧
      exOk (bcryptHashE (List.replicate 1000 'a') 0) = true :=
  ⟨rfl, rfl⟩

/-- C8 amended: the hash step never fails — it returns a hash for every
plaintext, empty or arbitrarily long, with no `InvalidInput` path; the
only guard on the plaintext is the register route's six-character
minimum, which fails with a `ValidationError` (leaving the store
untouched) before any hashing happens. -/
theorem C8_hash_never_fails (p : Str) (salt : Nat) :
    bcryptHashE p salt = .ok (bcryptHash p salt) ∧
    (∀ (issue : Nat → Option Nat) (n e pw : Str) (s : AuthState),
      n.isEmpty = false → e.isEmpty = false → pw.isEmpty = false →
      pw.length < 6 →
      register issue salt ⟨some n, some e, some pw⟩ s =
        (.error (.validation "Password must be at least 6 characters long"),
          s)) := by
  refine ⟨rfl, ?_⟩
  intro issue n e pw s hn he hpw hlen
  simp [register, jsAbsent, hn, he, hpw, hlen]

theorem C8_witness :
    (bcryptHashE "abc".data 0 = .ok (bcryptHash "abc".data 0)) ∧
      register (fun i => some i) 0
          ⟨some "Ann".data, some "a@x.com".data, some "abc".data⟩ ⟨[], 0⟩ =
        (.error (.validation "Password must be at least 6 characters long"),
          ⟨[], 0⟩) := by
  have h := C8_hash_never_fails "abc".data 0
  exact ⟨h.1, h.2 (fun i => some i) "Ann".data "a@x.com".data "abc".data
    ⟨[], 0⟩ (by decide) (by decide) (by decide) (by decide)⟩

/-- C9: authenticated task creation (`POST /api/tasks`): an absent title,
an empty-trimmed title, or one over 200 characters fails with a 400
validation error and persists nothing; otherwise exactly one task is
appended whose title is the trimmed input, whose `completed` is `false`,
and whose owner is the caller's resolved identity `uid` — never the
payload's `user` field (which `b` carries but the route ignores). -/
theorem C9_create_task (uid : Nat) (b : CreateBody) (s : TaskState) :
    (∀ t, b.title = .str t → (trimL t).isEmpty = true →
      createTask uid b s =
        (.error (.validation "Task title is required"), s)) ∧
    (∀ t, b.title = .str t → 200 < (trimL t).length →
      createTask uid b s =
        (.error (.validation "Task title cannot exceed 200 characters"), s)) ∧
    (∀ t, b.title = .str t → (trimL t).isEmpty = false →
      (trimL t).length ≤ 200 →
      createTask uid b s =
        (.ok ⟨s.nextId, trimL t, false, uid, s.nextId⟩,
          ⟨s.tasks ++ [⟨s.nextId, trimL t, false, uid, s.nextId⟩],
            s.nextId + 1⟩)) := by
  refine ⟨?_, ?_, ?_⟩
  · intro t htitle htrim
    by_cases hempty : t.isEmpty
    · simp [createTask, htitle, JSVal.toBoolean, hempty]
    · simp [createTask, htitle, JSVal.toBoolean, hempty, htrim]
  · intro t htitle hlong
    have hne : t.isEmpty = false := by
      cases t with
      | nil => simp [trimL] at hlong
      | cons c cs => rfl
    have htrim : (trimL t).isEmpty = false := by
      cases htl : trimL t with
      | nil => rw [htl] at hlong; simp at hlong
      | cons c cs => rfl
    simp [createTask, htitle, JSVal.toBoolean, hne, htrim, hlong]
  · intro t htitle htrim hlen
    have hne : t.isEmpty = false := by
      cases t with
      | nil => simp [trimL] at htrim
      | cons c cs => rfl
    have hnotlong : ¬ 200 < (trimL t).length := by omega
    simp [createTask, htitle, JSVal.toBoolean, hne, htrim, hnotlong]

theorem C9_witness :
    ((.str " Buy milk ".data : JSVal) = .str " Buy milk ".data ∧
      (trimL " Buy milk ".data).isEmpty = false ∧
      (trimL " Buy milk ".data).length ≤ 200) ∧
    createTask 1 ⟨.str " Buy milk ".data, some 99⟩ ⟨[], 5⟩ =
      (.ok ⟨5, "Buy milk".data, false, 1, 5⟩,
        ⟨[⟨5, "Buy milk".data, false, 1, 5⟩], 6⟩) := by
  refine ⟨⟨rfl, by decide, by decide⟩, ?_⟩
  have h := (C9_create_task 1 ⟨.str " Buy milk ".data, some 99⟩ ⟨[], 5⟩).2.2
      " Buy milk ".data rfl (by decide) (by decide)
  rw [h]
  rfl

/-- C10: in the authenticated task update, whenever the patch contains a
`completed` field, the stored value is the JavaScript truthiness coercion
`Boolean(completed)` of that field — in particular the non-empty string
`"false"` is truthy and sets `completed` to `true` — and an update whose
patch carries only a `completed` field can fail only with `NotFound`,
never with a validation error. -/
theorem C10_completed_truthiness (uid id : Nat) (v : JSVal)
    (hv : v ≠ .undef) (s : TaskState) (t : TaskRec)
    (hfind : s.tasks.find? (taskSel uid id) = some t) :
    updateTask uid id ⟨.undef, v⟩ s =
      (.ok { t with completed := v.toBoolean },
        ⟨updateFirst (taskSel uid id)
          (applyPatch none (some v.toBoolean)) s.tasks,
          s.nextId⟩) ∧
    JSVal.toBoolean (.str "false".data) = true ∧
    (∀ (w : JSVal) (s0 s0' : TaskState) (e : ApiErr),
      updateTask uid id ⟨.undef, w⟩ s0 = (.error e, s0') → e = .notFound) := by
  have hc : completedPatch v = some v.toBoolean := by
    cases v with
    | undef => exact absurd rfl hv
    | null => rfl
    | bool b => rfl
    | num n => rfl
    | str s => rfl
  refine ⟨?_, by decide, ?_⟩
  · simp only [updateTask, titleCheck, hfind, hc]
    rfl
  · intro w s0 s0' e h
    simp only [updateTask, titleCheck] at h
    cases hf : s0.tasks.find? (taskSel uid id) with
    | none =>
      rw [hf] at h
      injection h with h1 h2
      injection h1 with h1
      exact h1.symm
    | some t1 =>
      rw [hf] at h
      injection h with h1 h2
      exact absurd h1 (by simp)

theorem C10_witness :
    ((.str "false".data : JSVal) ≠ .undef ∧
      (TaskState.mk [⟨1, "Buy milk".data, false, 1, 1⟩] 2).tasks.find?
          (taskSel 1 1) = some ⟨1, "Buy milk".data, false, 1, 1⟩) ∧
    updateTask 1 1 ⟨.undef, .str "false".data⟩
        ⟨[⟨1, "Buy milk".data, false, 1, 1⟩], 2⟩ =
      (.ok ⟨1, "Buy milk".data, true, 1, 1⟩,
        ⟨[⟨1, "Buy milk".data, true, 1, 1⟩], 2⟩) := by
  refine ⟨⟨by decide, by decide⟩, ?_⟩
  have h := (C10_completed_truthiness 1 1 (.str "false".data) (by decide)
      ⟨[⟨1, "Buy milk".data, false, 1, 1⟩], 2⟩ ⟨1, "Buy milk".data, false, 1, 1⟩
      (by decide)).1
  rw [h]
  rfl

/-- C5: login with both fields present distinguishes the two failures and
never swaps or merges them: an unknown (normalized) email fails
`UserNotFound` (404 `USER_NOT_FOUND`), and an existing user whose stored
hash does not verify the password fails `InvalidCredentials`
(401 `INVALID_PASSWORD`); the two error values are distinct. -/
theorem C5_login_errors (issue : Nat → Option Nat) (e pw : Str)
    (s : AuthState) (he : e.isEmpty = false) (hpw : pw.isEmpty = false) :
    (s.users.find? (fun u => u.email == normEmail e) = none →
      login issue (some e) (some pw) s = (.error .userNotFound, s)) ∧
    (∀ u, s.users.find? (fun u => u.email == normEmail e) = some u →
      bcryptVerify pw u.hash = false →
      login issue (some e) (some pw) s = (.error .invalidCredentials, s)) ∧
    ApiErr.userNotFound ≠ ApiErr.invalidCredentials := by
  refine ⟨?_, ?_, by decide⟩
  · intro hfind
    simp [login, jsAbsent, he, hpw, hfind]
  · intro u hfind hverify
    simp [login, jsAbsent, he, hpw, hfind, hverify]

theorem C5_witness :
    ("zed@x.com".data.isEmpty = false ∧ "secret1".data.isEmpty = false) ∧
    (login (fun i => some i) (some "zed@x.com".data) (some "secret1".data)
        ⟨[⟨0, "Ann".data, "ann@x.com".data, bcryptHash "pass77".data 3⟩], 1⟩ =
      (.error .userNotFound,
        ⟨[⟨0, "Ann".data, "ann@x.com".data, bcryptHash "pass77".data 3⟩], 1⟩)) ∧
    (login (fun i => some i) (some "ann@x.com".data) (some "secret1".data)
        ⟨[⟨0, "Ann".data, "ann@x.com".data, bcryptHash "pass77".data 3⟩], 1⟩ =
      (.error .invalidCredentials,
        ⟨[⟨0, "Ann".data, "ann@x.com".data, bcryptHash "pass77".data 3⟩], 1⟩)) := by
  refine ⟨⟨by decide, by decide⟩, ?_, ?_⟩
  · exact (C5_login_errors (fun i => some i) "zed@x.com".data "secret1".data
      ⟨[⟨0, "Ann".data, "ann@x.com".data, bcryptHash "pass77".data 3⟩], 1⟩
      (by decide) (by decide)).1 (by decide)
  · exact (C5_login_errors (fun i => some i) "ann@x.com".data "secret1".data
      ⟨[⟨0, "Ann".data, "ann@x.com".data, bcryptHash "pass77".data 3⟩], 1⟩
      (by decide) (by decide)).2.1
      ⟨0, "Ann".data, "ann@x.com".data, bcryptHash "pass77".data 3⟩
      (by decide) (by decide)

/-- C4: two register calls with the same normalized email: a valid first
call (fresh email, schema-valid fields, working token issuance) succeeds,
and the second call — whatever its name and password, as long as its
fields are present and its password long enough — fails `UserExists`
with the store unchanged; and when the storage layer itself raises a
duplicate-key error (the check-then-act race), the register catch block
translates it to `UserExists`, not a generic failure. -/
theorem C4_duplicate_email (issue : Nat → Option Nat) (salt1 salt2 tk : Nat)
    (n1 e1 pw1 n2 e2 pw2 : Str) (s : AuthState)
    (hn1 : n1.isEmpty = false) (he1 : e1.isEmpty = false)
    (hp1 : pw1.isEmpty = false) (hlen1 : ¬ pw1.length < 6)
    (hfresh : s.users.any (fun u => u.email == normEmail e1) = false)
    (hschema : userSchemaValid (trimL n1) (normEmail e1) = true)
    (hissue : issue s.nextUid = some tk)
    (hn2 : n2.isEmpty = false) (he2 : e2.isEmpty = false)
    (hp2 : pw2.isEmpty = false) (hlen2 : ¬ pw2.length < 6)
    (hee : normEmail e2 = normEmail e1) :
    register issue salt1 ⟨some n1, some e1, some pw1⟩ s =
      (.ok ⟨tk, s.nextUid, trimL n1, normEmail e1⟩,
        ⟨s.users ++ [⟨s.nextUid, trimL n1, normEmail e1, bcryptHash pw1 salt1⟩],
          s.nextUid + 1⟩) ∧
    register issue salt2 ⟨some n2, some e2, some pw2⟩
        ⟨s.users ++ [⟨s.nextUid, trimL n1, normEmail e1, bcryptHash pw1 salt1⟩],
          s.nextUid + 1⟩ =
      (.error .userExists,
        ⟨s.users ++ [⟨s.nextUid, trimL n1, normEmail e1, bcryptHash pw1 salt1⟩],
          s.nextUid + 1⟩) ∧
    registerCatch .dupKey = .userExists := by
  refine ⟨?_, ?_, rfl⟩
  · simp [register, jsAbsent, hn1, he1, hp1, hlen1, hfresh, hschema, hissue]
  · have hany : (s.users ++
        [(⟨s.nextUid, trimL n1, normEmail e1, bcryptHash pw1 salt1⟩ :
          UserRec)]).any (fun u => u.email == normEmail e2) = true := by
      simp [List.any_append, hee]
    simp [register, jsAbsent, hn2, he2, hp2, hlen2, hany]

theorem C4_witness :
    ("Ann".data.isEmpty = false ∧ "ann@x.com".data.isEmpty = false ∧
      "secret1".data.isEmpty = false ∧ ¬ "secret1".data.length < 6 ∧
      (AuthState.mk [] 0).users.any
        (fun u => u.email == normEmail "ann@x.com".data) = false ∧
      userSchemaValid (trimL "Ann".data) (normEmail "ann@x.com".data) = true ∧
      (fun i => some i) (AuthState.mk [] 0).nextUid = some 0 ∧
      "Bob".data.isEmpty = false ∧ " Ann@X.COM ".data.isEmpty = false ∧
      "secret2".data.isEmpty = false ∧ ¬ "secret2".data.length < 6 ∧
      normEmail " Ann@X.COM ".data = normEmail "ann@x.com".data) ∧
    register (fun i => some i) 7
        ⟨some "Bob".data, some " Ann@X.COM ".data, some "secret2".data⟩
        ⟨[] ++ [⟨0, trimL "Ann".data, normEmail "ann@x.com".data,
          bcryptHash "secret1".data 3⟩], 0 + 1⟩ =
      (.error .userExists,
        ⟨[] ++ [⟨0, trimL "Ann".data, normEmail "ann@x.com".data,
          bcryptHash "secret1".data 3⟩], 0 + 1⟩) := by
  refine ⟨⟨by decide, by decide, by decide, by decide, by decide, by decide,
    rfl, by decide, by decide, by decide, by decide, by decide⟩, ?_⟩
  exact (C4_duplicate_email (fun i => some i) 3 7 0 "Ann".data
    "ann@x.com".data "secret1".data "Bob".data " Ann@X.COM ".data
    "secret2".data ⟨[], 0⟩ (by decide) (by decide) (by decide) (by decide)
    (by decide) (by decide) rfl (by decide) (by decide) (by decide)
    (by decide) (by decide)).2.1

/-- C3 counterexample: with a failing token issuance (`generateToken` =
`jwt.sign` throwing, e.g. an unset `JWT_SECRET`), a register call that
has already executed `user.save()` returns a 500 — and the User record
survives in the store, so a failed token-issue does leave a created User
behind, refuting caller-visible atomicity. -/
theorem C3_counterexample :
    register (fun _ => none) 0
        ⟨some "Ann".data, some "ann@x.com".data, some "secret1".data⟩
        ⟨[], 0⟩ =
      (.error .serverError,
        ⟨[⟨0, "Ann".data, "ann@x.com".data, bcryptHash "secret1".data 0⟩],
          1⟩) ∧
    (⟨[⟨0, "Ann".data, "ann@x.com".data, bcryptHash "secret1".data 0⟩], 1⟩ :
        AuthState) ≠ ⟨[], 0⟩ := by
  exact ⟨rfl, by decide⟩

/-- C3 amended: every register failure apart from the post-save 500
leaves the store exactly as it was; but registration is not atomic as a
whole: when token issuance fails after the credential write, the call
returns a 500 `ServerError` and the freshly created User record remains
in the store. -/
theorem C3_register_atomicity (issue : Nat → Option Nat) (salt : Nat)
    (b : RegBody) (s : AuthState) :
    (∀ e s', register issue salt b s = (.error e, s') →
      e ≠ .serverError → s' = s) ∧
    (∀ n e pw, b = ⟨some n, some e, some pw⟩ →
      n.isEmpty = false → e.isEmpty = false → pw.isEmpty = false →
      ¬ pw.length < 6 →
      s.users.any (fun u => u.email == normEmail e) = false →
      userSchemaValid (trimL n) (normEmail e) = true →
      issue s.nextUid = none →
      register issue salt b s =
        (.error .serverError,
          ⟨s.users ++ [⟨s.nextUid, trimL n, normEmail e, bcryptHash pw salt⟩],
            s.nextUid + 1⟩)) := by
  constructor
  · intro e s' h hne
    simp only [register] at h
    split at h
    · injection h with h1 h2
      exact h2.symm
    · split at h
      · split at h
        · injection h with h1 h2
          exact h2.symm
        · split at h
          · injection h with h1 h2
            exact h2.symm
          · split at h
            · injection h with h1 h2
              exact h2.symm
            · split at h
              · injection h with h1 h2
                injection h1 with h1
                exact absurd h1.symm hne
              · injection h with h1 h2
                exact Except.noConfusion h1
      · injection h with h1 h2
        exact h2.symm
  · intro n e pw hb hn he hpw hlen hfresh hschema hissue
    subst hb
    simp [register, jsAbsent, hn, he, hpw, hlen, hfresh, hschema, hissue]

theorem C3_witness :
    ((RegBody.mk (some "Ann".data) (some "ann@x.com".data)
        (some "secret1".data)) = ⟨some "Ann".data, some "ann@x.com".data,
          some "secret1".data⟩ ∧
      "Ann".data.isEmpty = false ∧ "ann@x.com".data.isEmpty = false ∧
      "secret1".data.isEmpty = false ∧ ¬ "secret1".data.length < 6 ∧
      (AuthState.mk [] 0).users.any
        (fun u => u.email == normEmail "ann@x.com".data) = false ∧
      userSchemaValid (trimL "Ann".data) (normEmail "ann@x.com".data) = true ∧
      (fun (_ : Nat) => (none : Option Nat)) (AuthState.mk [] 0).nextUid =
        none) ∧
    register (fun _ => none) 4
        ⟨some "Ann".data, some "ann@x.com".data, some "secret1".data⟩
        ⟨[], 0⟩ =
      (.error .serverError,
        ⟨[] ++ [⟨0, trimL "Ann".data, normEmail "ann@x.com".data,
          bcryptHash "secret1".data 4⟩], 0 + 1⟩) := by
  refine ⟨⟨rfl, by decide, by decide, by decide, by decide, by decide,
    by decide, rfl⟩, ?_⟩
  exact (C3_register_atomicity (fun _ => none) 4
    ⟨some "Ann".data, some "ann@x.com".data, some "secret1".data⟩
    ⟨[], 0⟩).2 "Ann".data "ann@x.com".data "secret1".data rfl (by decide)
    (by decide) (by decide) (by decide) (by decide) (by decide) rfl

/-- C6 counterexample: a register call whose name is a single character
(outside 2–50) but whose email is already taken fails `UserExists`, not
the `ValidationError` the claim requires for every name-constraint
violation, because the duplicate-email lookup runs before the schema
constraints are ever checked. -/
theorem C6_counterexample :
    nameValid (trimL "A".data) = false ∧
    register (fun i => some i) 0
        ⟨some "A".data, some "ann@x.com".data, some "secret1".data⟩
        ⟨[⟨0, "Ann".data, "ann@x.com".data, bcryptHash "pass77".data 3⟩], 1⟩ =
      (.error .userExists,
        ⟨[⟨0, "Ann".data, "ann@x.com".data, bcryptHash "pass77".data 3⟩],
          1⟩) := by
  exact ⟨by decide, rfl⟩

/-- C6 amended: register checks field presence and the six-character
password minimum before any store access, failing `ValidationError` with
the store untouched; the name-length (2–50) and email-syntax constraints
are enforced by the (spec-modelled) User schema only at save time, after
the duplicate-email lookup — so they fail `ValidationError` (creating no
User) exactly when the normalized email is not already taken, while a
taken email fails `UserExists` even when the name or email violates its
constraint; in all of these failures no User record is created. -/
theorem C6_register_validation (issue : Nat → Option Nat) (salt : Nat)
    (b : RegBody) (s : AuthState) :
    ((jsAbsent b.name || jsAbsent b.email || jsAbsent b.password) = true →
      register issue salt b s =
        (.error (.validation "Please provide name, email, and password"),
          s)) ∧
    (∀ n e pw, b = ⟨some n, some e, some pw⟩ →
      n.isEmpty = false → e.isEmpty = false → pw.isEmpty = false →
      pw.length < 6 →
      register issue salt b s =
        (.error (.validation "Password must be at least 6 characters long"),
          s)) ∧
    (∀ n e pw, b = ⟨some n, some e, some pw⟩ →
      n.isEmpty = false → e.isEmpty = false → pw.isEmpty = false →
      ¬ pw.length < 6 →
      s.users.any (fun u => u.email == normEmail e) = false →
      userSchemaValid (trimL n) (normEmail e) = false →
      register issue salt b s =
        (.error (.validation "Please check your input and try again."), s)) ∧
    (∀ n e pw, b = ⟨some n, some e, some pw⟩ →
      n.isEmpty = false → e.isEmpty = false → pw.isEmpty = false →
      ¬ pw.length < 6 →
      s.users.any (fun u => u.email == normEmail e) = true →
      register issue salt b s = (.error .userExists, s)) := by
  refine ⟨?_, ?_, ?_, ?_⟩
  · intro habs
    simp [register, habs]
  · intro n e pw hb hn he hpw hlen
    subst hb
    simp [register, jsAbsent, hn, he, hpw, hlen]
  · intro n e pw hb hn he hpw hlen hfresh hschema
    subst hb
    simp [register, jsAbsent, hn, he, hpw, hlen, hfresh, hschema]
  · intro n e pw hb hn he hpw hlen htaken
    subst hb
    simp [register, jsAbsent, hn, he, hpw, hlen, htaken]

theorem C6_witness :
    ((RegBody.mk (some "A".data) (some "new@x.com".data)
        (some "secret1".data)) = ⟨some "A".data, some "new@x.com".data,
          some "secret1".data⟩ ∧
      "A".data.isEmpty = false ∧ "new@x.com".data.isEmpty = false ∧
      "secret1".data.isEmpty = false ∧ ¬ "secret1".data.length < 6 ∧
      (AuthState.mk [] 0).users.any
        (fun u => u.email == normEmail "new@x.com".data) = false ∧
      userSchemaValid (trimL "A".data) (normEmail "new@x.com".data) =
        false) ∧
    register (fun i => some i) 0
        ⟨some "A".data, some "new@x.com".data, some "secret1".data⟩
        ⟨[], 0⟩ =
      (.error (.validation "Please check your input and try again."),
        ⟨[], 0⟩) := by
  refine ⟨⟨rfl, by decide, by decide, by decide, by decide, by decide,
    by decide⟩, ?_⟩
  exact (C6_register_validation (fun i => some i) 0
    ⟨some "A".data, some "new@x.com".data, some "secret1".data⟩
    ⟨[], 0⟩).2.2.1 "A".data "new@x.com".data "secret1".data rfl (by decide)
    (by decide) (by decide) (by decide) (by decide) (by decide)

/-- C2 counterexample: not every task CRUD operation is protected by the
Access Guard — the legacy task router (taskRoutes.js lines 1–35) performs
task CRUD with no credentials at all: its delete handler, given no token
of any kind, removes an existing task (a state change) and even reports
success, and its list handler returns every user's tasks. -/
theorem C2_counterexample :
    legacyDelete 1 ⟨[⟨1, "Buy milk".data, false, 7, 1⟩], 2⟩ =
      (.ok (), ⟨[], 2⟩) ∧
    (⟨[], 2⟩ : TaskState) ≠ ⟨[⟨1, "Buy milk".data, false, 7, 1⟩], 2⟩ ∧
    legacyGetAll ⟨[⟨1, "Buy milk".data, false, 7, 1⟩], 2⟩ =
      [⟨1, "Buy milk".data, false, 7, 1⟩] := by
  exact ⟨rfl, by decide, rfl⟩

/-- C2 amended: every operation of the authenticated task router is
protected by the (spec-modelled) Access Guard — whenever the guard
rejects, each of the four CRUD endpoints returns `Unauthorized` and the
task store is unchanged; the guard rejects an absent token, a bad
signature, a passed expiry, and a subject with no stored user; and it
only ever resolves a presented, verified token's subject that exists in
the user store.  (The legacy router's operations remain reachable with no
guard at all, as the counterexample shows.) -/
theorem C2_guard_protection (now : Nat) (userIds : List Nat)
    (tok : Option Tok) :
    (guard now userIds tok = .error .unauthorized →
      ∀ (b : CreateBody) (q : ListQuery) (id : Nat) (ub : UpdateBody)
        (s : TaskState),
        authedCreate now userIds tok b s = (.error .unauthorized, s) ∧
        authedList now userIds tok q s = (.error .unauthorized, s) ∧
        authedUpdate now userIds tok id ub s = (.error .unauthorized, s) ∧
        authedDelete now userIds tok id s = (.error .unauthorized, s)) ∧
    (tok = none → guard now userIds tok = .error .unauthorized) ∧
    (∀ t, tok = some t → t.sigOk = false →
      guard now userIds tok = .error .unauthorized) ∧
    (∀ t, tok = some t → t.exp ≤ now →
      guard now userIds tok = .error .unauthorized) ∧
    (∀ t, tok = some t → userIds.contains t.sub = false →
      guard now userIds tok = .error .unauthorized) ∧
    (∀ u, guard now userIds tok = .ok u →
      ∃ t, tok = some t ∧ u = t.sub ∧ t.sigOk = true ∧ now < t.exp ∧
        userIds.contains t.sub = true) := by
  refine ⟨?_, ?_, ?_, ?_, ?_, ?_⟩
  · intro hg b q id ub s
    refine ⟨?_, ?_, ?_, ?_⟩ <;>
      simp [authedCreate, authedList, authedUpdate, authedDelete, hg]
  · intro h
    subst h
    rfl
  · intro t h hsig
    subst h
    simp [guard, hsig]
  · intro t h hexp
    subst h
    simp [guard, hexp]
  · intro t h hmem
    subst h
    have hm : t.sub ∉ userIds := by simpa using hmem
    simp [guard, hm]
  · intro u hg
    cases tok with
    | none => exact absurd hg (by simp [guard])
    | some t =>
      refine ⟨t, rfl, ?_⟩
      simp only [guard] at hg
      by_cases hsig : t.sigOk
      · by_cases hexp : t.exp ≤ now
        · rw [if_neg (by simp [hsig]), if_pos hexp] at hg
          exact Except.noConfusion hg
        · by_cases hmem : userIds.contains t.sub
          · rw [if_neg (by simp [hsig]), if_neg hexp, if_pos hmem] at hg
            injection hg with hg
            exact ⟨hg.symm, hsig, by omega, hmem⟩
          · rw [if_neg (by simp [hsig]), if_neg hexp, if_neg hmem] at hg
            exact Except.noConfusion hg
      · rw [if_pos (by simp [hsig])] at hg
        exact Except.noConfusion hg

theorem C2_guard_witness :
    (guard 10 [1] (some ⟨1, 5, true⟩) = .error .unauthorized) ∧
    authedDelete 10 [1] (some ⟨1, 5, true⟩) 1
        ⟨[⟨1, "Buy milk".data, false, 1, 1⟩], 2⟩ =
      (.error .unauthorized, ⟨[⟨1, "Buy milk".data, false, 1, 1⟩], 2⟩) := by
  refine ⟨rfl, ?_⟩
  exact ((C2_guard_protection 10 [1] (some ⟨1, 5, true⟩)).1 rfl
    ⟨.undef, none⟩ defaultQuery 1 ⟨.undef, .undef⟩
    ⟨[⟨1, "Buy milk".data, false, 1, 1⟩], 2⟩).2.2.2

/-- C1: ownership isolation.  For distinct users `A` and `B` and a stored
task `t` owned by `B` (in a well-formed store): `A`'s update, delete and
single-task fetch of `t.id` all fail `NotFound` with no state change;
`A`'s task list never contains `t` (in any state); after any sequence of
task operations performed as `A`, `B`'s set of tasks is exactly unchanged
and `t` is still stored — so no sequence of `A`'s operations can observe,
modify, or delete it; and `A`'s own update (with a valid patch), delete
and fetch of a task `tA` that `A` owns succeed. -/
theorem C1_ownership_isolation (A B : Nat) (hAB : A ≠ B) (s : TaskState)
    (hWF : WFS s) (t : TaskRec) (ht : t ∈ s.tasks) (hB : t.user = B)
    (tA : TaskRec) (htA : tA ∈ s.tasks) (hA : tA.user = A)
    (ub : UpdateBody) (tOpt : Option Str)
    (hub : titleCheck ub.title = .ok tOpt) :
    updateTask A t.id ub s = (.error .notFound, s) ∧
    deleteTask A t.id s = (.error .notFound, s) ∧
    getTaskSpec A t.id s = .error .notFound ∧
    (∀ (s' : TaskState) (q : ListQuery), t ∉ listTasks A q s') ∧
    (∀ ops : List TaskOp,
      ownedBy B (applyOps A ops s) = ownedBy B s ∧
        t ∈ (applyOps A ops s).tasks) ∧
    exOk (updateTask A tA.id ub s).1 = true ∧
    exOk (deleteTask A tA.id s).1 = true ∧
    exOk (getTaskSpec A tA.id s) = true := by
  have hnone := find_none_of_other_owner hAB hWF.1 ht hB
  have hself := find_self_of_owner hWF.1 htA hA
  have hBA : (t.user == A) = false := by
    simp [hB]
    exact fun h => hAB h.symm
  refine ⟨?_, ?_, ?_, ?_, ?_, ?_, ?_, ?_⟩
  · simp [updateTask, hub, hnone]
  · simp [deleteTask, hnone]
  · simp [getTaskSpec, hnone]
  · intro s' q hmem
    simp only [listTasks] at hmem
    have h1 := List.take_subset _ _ hmem
    have h2 := List.drop_subset _ _ h1
    have h3 : t ∈ s'.tasks.filter fun u =>
        u.user == A &&
          (match q.completed with
           | none => true
           | some c => u.completed == (c == "true".data)) := by
      by_cases hsort : q.sortNewestFirst
      · rw [hsort, if_pos rfl] at h2
        exact (mem_sortBy _ _ _).mp h2
      · rw [if_neg hsort] at h2
        exact (mem_sortBy _ _ _).mp h2
    have := (List.mem_filter.mp h3).2
    rw [Bool.and_eq_true, hBA] at this
    exact Bool.noConfusion this.1
  · intro ops
    constructor
    · exact ownedBy_applyOps A B hAB ops s
    · have htB : t ∈ ownedBy B s :=
        List.mem_filter.mpr ⟨ht, by simp [hB]⟩
      rw [← ownedBy_applyOps A B hAB ops s] at htB
      exact (List.mem_filter.mp htB).1
  · simp [updateTask, hub, hself, exOk]
  · simp [deleteTask, hself, exOk]
  · simp [getTaskSpec, hself, exOk]

theorem C1_witness :
    ((1 : Nat) ≠ 2 ∧ WFS ⟨[⟨1, "Buy milk".data, false, 2, 1⟩,
        ⟨2, "Own".data, false, 1, 2⟩], 3⟩ ∧
      (⟨1, "Buy milk".data, false, 2, 1⟩ : TaskRec) ∈
        (TaskState.mk [⟨1, "Buy milk".data, false, 2, 1⟩,
          ⟨2, "Own".data, false, 1, 2⟩] 3).tasks ∧
      (⟨1, "Buy milk".data, false, 2, 1⟩ : TaskRec).user = 2 ∧
      (⟨2, "Own".data, false, 1, 2⟩ : TaskRec) ∈
        (TaskState.mk [⟨1, "Buy milk".data, false, 2, 1⟩,
          ⟨2, "Own".data, false, 1, 2⟩] 3).tasks ∧
      (⟨2, "Own".data, false, 1, 2⟩ : TaskRec).user = 1 ∧
      titleCheck (UpdateBody.mk .undef (.bool true)).title =
        .ok (none : Option Str)) ∧
    updateTask 1 1 ⟨.undef, .bool true⟩
        ⟨[⟨1, "Buy milk".data, false, 2, 1⟩, ⟨2, "Own".data, false, 1, 2⟩],
          3⟩ =
      (.error .notFound,
        ⟨[⟨1, "Buy milk".data, false, 2, 1⟩, ⟨2, "Own".data, false, 1, 2⟩],
          3⟩) ∧
    deleteTask 1 1
        ⟨[⟨1, "Buy milk".data, false, 2, 1⟩, ⟨2, "Own".data, false, 1, 2⟩],
          3⟩ =
      (.error .notFound,
        ⟨[⟨1, "Buy milk".data, false, 2, 1⟩, ⟨2, "Own".data, false, 1, 2⟩],
          3⟩) := by
  have h := C1_ownership_isolation 1 2 (by decide)
    ⟨[⟨1, "Buy milk".data, false, 2, 1⟩, ⟨2, "Own".data, false, 1, 2⟩], 3⟩
    ⟨by decide, by decide⟩ ⟨1, "Buy milk".data, false, 2, 1⟩ (by decide)
    rfl ⟨2, "Own".data, false, 1, 2⟩ (by decide) rfl ⟨.undef, .bool true⟩
    none rfl
  exact ⟨⟨by decide, ⟨by decide, by decide⟩, by decide, rfl, by decide, rfl,
    rfl⟩, h.1, h.2.1⟩

end TodoApp
